import Mathlib

/-!
Shallow embedding of the core of the marl scheduler library
(google/marl), together with proofs checking the natural-language
specification against the code.

Sources embedded here:
- include/marl/scheduler.h   (Scheduler, Worker, Fiber, Work, FastRnd)
- include/marl/memory.h      (aligned_malloc / aligned_free)
- include/marl/event.h       (Event)
- include/marl/move_only_function.h

Machine integers are modelled as Nat with explicit reduction modulo
2^64 or 2^8 exactly where the C++ types wrap.
-/

namespace Marl

/-! ### FastRnd (scheduler.h, class Scheduler::Worker::FastRnd)

The C++ body of operator() is
  x ^= x << 13; x ^= x >> 7; x ^= x << 17; return x;
on a uint64_t member x, initialised from
  std::chrono::system_clock::now().time_since_epoch().count().
Each shift and xor is 64-bit arithmetic, so every intermediate value is
reduced modulo 2^64. -/

/-- One call of FastRnd::operator() on state x: the three xorshift
statements of the source, each on 64-bit values. -/
def fastRndNext (x : Nat) : Nat :=
  let a := x ^^^ ((x <<< 13) % 2 ^ 64)
  let b := a ^^^ (a >>> 7)
  let c := b ^^^ ((b <<< 17) % 2 ^ 64)
  c

/-- The FastRnd generator state: the single uint64_t member x. -/
structure FastRnd where
  x : Nat

/-- Construction of a FastRnd: the member initialiser seeds x from the
system clock tick count (the clock value is a parameter of the model,
cast to uint64_t). -/
def FastRnd.seed (clockCount : Nat) : FastRnd :=
  ⟨clockCount % 2 ^ 64⟩

/-- FastRnd::operator(): updates the state by the three xorshift steps
and returns the resulting x. -/
def FastRnd.call (r : FastRnd) : Nat × FastRnd :=
  (fastRndNext r.x, ⟨fastRndNext r.x⟩)

/-- Modelled from the spec: the xorshift64 function with the exact shift
constants 13, 7 and 17, as the specification words it
(x ^= x shifted left 13; x ^= x shifted right 7; x ^= x shifted left 17;
returning x), on 64-bit state. Stated separately from fastRndNext so the
source can be compared against the spec. -/
def xorshift64Spec (x : Nat) : Nat :=
  let a := (x ^^^ (x <<< 13)) % 2 ^ 64
  let b := (a ^^^ (a >>> 7)) % 2 ^ 64
  let c := (b ^^^ (b <<< 17)) % 2 ^ 64
  c

/-! ### Scheduler counters (scheduler.h)

The member declarations are:
  std::array of 8 atomic int        spinningWorkers;
  std::atomic of unsigned int       nextSpinningWorkerIdx = 0x8000000;
  std::atomic of unsigned int       nextEnqueueIndex = 0;
  unsigned int                      numWorkerThreads = 0;
  std::array of Worker pointer, MaxWorkerThreads   workerThreads;
-/

/-- Initial value of Scheduler::nextEnqueueIndex, from its in-class
member initialiser in scheduler.h. -/
def nextEnqueueIndexInit : Nat := 0

/-- Initial value of Scheduler::nextSpinningWorkerIdx, from its in-class
member initialiser in scheduler.h. -/
def nextSpinningWorkerIdxInit : Nat := 0x8000000

/-- Number of entries of the Scheduler::spinningWorkers array. -/
def spinningWorkersSize : Nat := 8

/-! ### Fiber states (scheduler.h, enum class Scheduler::Fiber::State) -/

/-- The five values of enum class Fiber::State, exactly as declared. -/
inductive FiberState where
  | Idle
  | Yielded
  | Waiting
  | Queued
  | Running
deriving DecidableEq, Repr

/-- The state a Fiber holds immediately after construction: the in-class
member initialiser in scheduler.h is
  State state = State::Running;
and the single Fiber constructor takes only the OSFiber and the id, so
every construction path (Fiber::create and
Fiber::createFromCurrentThread) yields this state. -/
def fiberStateAfterConstruction : FiberState := .Running

/-! ### Compile-time size constants (scheduler.h) -/

/-- Scheduler::FiberStackSize, the stack size in bytes of a new fiber. -/
def FiberStackSize : Nat := 1024 * 1024

/-- Scheduler::MaxWorkerThreads, the maximum number of worker threads. -/
def MaxWorkerThreads : Nat := 256

/-- The index type of Scheduler::workerThreads, declared as
std::array of Worker pointer with extent MaxWorkerThreads. -/
abbrev WorkerThreadIndex : Type := Fin MaxWorkerThreads

/-! ### Work (scheduler.h, struct Scheduler::Worker::Work)

The struct declares
  std::atomic of uint64_t  num;              commented: tasks.size() + fibers.size()
  uint64_t                 numBlockedFibers;
  TaskQueue                tasks;            a deque of Task
  FiberQueue               fibers;           a deque of Fiber pointer
  WaitingFibers            waiting;
  bool                     notifyAdded;
The member functions that mutate it live in src/scheduler.cpp, which is
not part of this source tree; they are modelled from the spec below. -/

/-- The per-worker Work bundle. Queues are modelled as lists with the
front at the head; the waiting set as a list of (deadline, fiber). -/
structure Work (T F : Type) where
  num : Nat
  numBlockedFibers : Nat
  tasks : List T
  fibers : List F
  waiting : List (Nat × F)
  notifyAdded : Bool

/-- The documented relation between the atomic counter and the queues:
num equals tasks.size() + fibers.size(). -/
def Work.counterInv {T F : Type} (w : Work T F) : Prop :=
  w.num = w.tasks.length + w.fibers.length

/-- Modelled from the spec: Worker::enqueue(Task&&), whose body is in the
missing scheduler.cpp. A new task is pushed at the back of tasks, num is
incremented and notifyAdded is set. -/
def Work.enqueueTask {T F : Type} (w : Work T F) (t : T) : Work T F :=
  { w with
    tasks := w.tasks ++ [t]
    num := w.num + 1
    notifyAdded := true }

/-- Modelled from the spec: Worker::enqueue(Fiber*) (resumption), whose
body is in the missing scheduler.cpp. If the fiber is in the waiting set
it is erased; the fiber is pushed at the back of fibers, num is
incremented, numBlockedFibers is decremented and notifyAdded is set. -/
def Work.enqueueFiber {T F : Type} [DecidableEq F] (w : Work T F) (f : F) :
    Work T F :=
  { w with
    waiting := w.waiting.filter (fun e => decide (e.2 ≠ f))
    fibers := w.fibers ++ [f]
    num := w.num + 1
    numBlockedFibers := w.numBlockedFibers - 1
    notifyAdded := true }

/-- Modelled from the spec: the worker run loop popping the task at the
front of tasks (scheduler.cpp is missing); num is decremented. Returns
none when tasks is empty. -/
def Work.takeTask {T F : Type} (w : Work T F) : Option (T × Work T F) :=
  match w.tasks with
  | [] => none
  | t :: rest => some (t, { w with tasks := rest, num := w.num - 1 })

/-- Modelled from the spec: the worker run loop popping the fiber at the
front of fibers (scheduler.cpp is missing); num is decremented. Returns
none when fibers is empty. -/
def Work.takeFiber {T F : Type} (w : Work T F) : Option (F × Work T F) :=
  match w.fibers with
  | [] => none
  | f :: rest => some (f, { w with fibers := rest, num := w.num - 1 })

/-- Modelled from the spec: Worker::steal, which pops the task at the
front of tasks for another worker (scheduler.cpp is missing). Ready
fibers are never stolen. -/
def Work.steal {T F : Type} (w : Work T F) : Option (T × Work T F) :=
  w.takeTask

/-! ### Worker::wait with deadline (scheduler.cpp, missing; modelled)

Modelled from the spec, section on wait(lock, deadline?, pred):
while the predicate is false, suspend until a notify or the timeout;
on each wake re-check the predicate, and if a deadline is supplied and
now is at or past the deadline, break with the timeout result false.
A run of the wait is represented by the predicate value on entry and
the sequence of wakes, each wake carrying the predicate value observed
after re-locking and the current time. The result is none when the
fiber is never woken again (it stays suspended). -/

/-- Modelled from the spec: Worker::wait(lock, timeout, pred), the
on-fiber predicate wait loop of the missing scheduler.cpp. -/
def workerWait (deadline : Option Nat) :
    Bool → List (Bool × Nat) → Option Bool
  | true, _ => some true
  | false, [] => none
  | false, (p, now) :: rest =>
    match deadline with
    | some d =>
      if p then some true
      else if d ≤ now then some false
      else workerWait deadline p rest
    | none =>
      if p then some true else workerWait deadline p rest

/-! ### Free function schedule (scheduler.h)

inline void schedule(Task&& t) expands to
  MARL_ASSERT_HAS_BOUND_SCHEDULER("marl::schedule");
  auto scheduler = Scheduler::get();
  scheduler->enqueue(std::move(t));
Scheduler::get() returns the thread-local bound scheduler or null. -/

/-- Outcome of a call to marl::schedule. -/
inductive ScheduleResult (S T : Type) where
  | assertionFailure
  | enqueued (scheduler : S) (task : T)
deriving DecidableEq

/-- Modelled from the spec: marl::schedule(Task&&). The inline body is
in scheduler.h, but the MARL_ASSERT_HAS_BOUND_SCHEDULER macro lives in
the missing debug.h; per the spec it aborts fatally when no scheduler is
bound to the calling thread, and otherwise the task is forwarded
unchanged to the bound scheduler via Scheduler::get()->enqueue. -/
def schedule {S T : Type} (bound : Option S) (t : T) : ScheduleResult S T :=
  match bound with
  | none => ScheduleResult.assertionFailure
  | some s => ScheduleResult.enqueued s t

/-! ### aligned_malloc / aligned_free (memory.h)

aligned_malloc(alignment, size):
  asserts alignment < 256;
  allocation = new uint8_t[size + sizeof(uint8_t) + alignment];
  aligned = allocation + 1, rounded up to alignment with alignUp;
  offset = uint8_t(aligned - allocation); aligned[-1] = offset;
  returns aligned.
aligned_free(ptr): offset = ptr[-1]; delete[] (ptr - offset).
Addresses are modelled as Nat; the uint8_t cast is an explicit
reduction modulo 2^8. -/

/-- marl::alignUp from memory.h. -/
def alignUp (val alignment : Nat) : Nat :=
  alignment * ((val + alignment - 1) / alignment)

/-- Size in bytes of the underlying allocation made by aligned_malloc:
size + sizeof(uint8_t) + alignment. -/
def allocationSize (alignment size : Nat) : Nat :=
  size + 1 + alignment

/-- marl::aligned_malloc from memory.h, given the base address of the
underlying allocation. Returns the aligned pointer together with the
offset byte the code stores at aligned[-1] (the uint8_t cast of
aligned - allocation). -/
def aligned_malloc (base alignment size : Nat) : Nat × Nat :=
  let aligned := alignUp (base + 1) alignment
  let offset := (aligned - base) % 2 ^ 8
  (aligned, offset)

/-- marl::aligned_free from memory.h: reads the offset byte stored at
ptr[-1] and frees the address ptr - offset. Returns the address handed
to delete[]. -/
def aligned_free (ptr offsetByte : Nat) : Nat :=
  ptr - offsetByte

/-! ### Event (event.h) -/

/-- enum class Event::Mode. -/
inductive EventMode where
  | Auto
  | Manual
deriving DecidableEq, Repr

/-- The Event::Data fields relevant to signalling (the mutex and the
condition variable serialise access and are implicit in the
state-passing model). -/
structure EventData where
  mode : EventMode
  signalled : Bool
deriving DecidableEq, Repr

/-- Event::test from event.h:
  if (!signalled) return false;
  if (mode == Auto) signalled = false;
  return true;
returning the result together with the state after the call. -/
def Event.test (e : EventData) : Bool × EventData :=
  if e.signalled = false then
    (false, e)
  else
    if e.mode = EventMode.Auto then
      (true, { e with signalled := false })
    else
      (true, e)

/-! ### move_only_function (move_only_function.h)

The wrapper stores a pointer ops_ to the type-erased operations (null
when empty) and the managed callable in object_. The move constructor is
  ops_ = function.ops_; function.ops_ = nullptr;
  if (ops_) ops_->manager(&object_, &function.object_);
so the new wrapper takes over the callable and the source is left with a
null ops_. The pair (ops_, object_) is modelled as an Option holding the
managed callable. -/

/-- The state of a marl::move_only_function: none models a null ops_
pointer (empty wrapper); some c models a non-null ops_ whose object_
stores the callable c. -/
structure move_only_function (C : Type) where
  ops : Option C

/-- The move constructor move_only_function(move_only_function&&):
returns (the newly constructed wrapper, the moved-from source). -/
def move_only_function.moveConstruct {C : Type}
    (f : move_only_function C) :
    move_only_function C × move_only_function C :=
  (⟨f.ops⟩, ⟨none⟩)

/-- operator bool(): true iff ops_ is non-null. -/
def move_only_function.toBool {C : Type} (f : move_only_function C) : Bool :=
  f.ops.isSome

/-- operator()(args...): invokes the stored callable through
ops_->invoker; none models the undefined behaviour of calling an empty
wrapper. -/
def move_only_function.invoke {α β : Type}
    (f : move_only_function (α → β)) (a : α) : Option β :=
  f.ops.map (fun g => g a)

/-! ## Theorems -/

/-- Reducing an xor modulo a power of two distributes over both
arguments: taking the low n bits commutes with bitwise xor. -/
theorem xor_mod_two_pow (a b n : Nat) :
    (a ^^^ b) % 2 ^ n = a % 2 ^ n ^^^ b % 2 ^ n := by
  apply Nat.eq_of_testBit_eq
  intro i
  rcases Nat.lt_or_ge i n with h | h
  · simp [Nat.testBit_mod_two_pow, Nat.testBit_xor, h]
  · have h' : ¬i < n := Nat.not_lt.mpr h
    simp [Nat.testBit_mod_two_pow, Nat.testBit_xor, h']

/-- An xorshift statement of the form x ^= x << k on 64-bit arithmetic:
reducing after the xor agrees with reducing the shift first, when the
input is in range. -/
theorem xor_shl_mod (y k : Nat) (hy : y < 2 ^ 64) :
    (y ^^^ (y <<< k)) % 2 ^ 64 = y ^^^ ((y <<< k) % 2 ^ 64) := by
  rw [xor_mod_two_pow, Nat.mod_eq_of_lt hy]

/-- The statement x ^= x << k keeps 64-bit values in range. -/
theorem xor_shl_lt (y k : Nat) (hy : y < 2 ^ 64) :
    y ^^^ ((y <<< k) % 2 ^ 64) < 2 ^ 64 :=
  Nat.xor_lt_two_pow hy (Nat.mod_lt _ (by decide))

/-- The statement x ^= x >> k keeps 64-bit values in range. -/
theorem xor_shr_lt (y k : Nat) (hy : y < 2 ^ 64) :
    y ^^^ (y >>> k) < 2 ^ 64 := by
  have h : y >>> k ≤ y := by
    rw [Nat.shiftRight_eq_div_pow]
    exact Nat.div_le_self y (2 ^ k)
  exact Nat.xor_lt_two_pow hy (Nat.lt_of_le_of_lt h hy)

/-- The statement x ^= x >> k needs no reduction on in-range input. -/
theorem xor_shr_mod (y k : Nat) (hy : y < 2 ^ 64) :
    (y ^^^ (y >>> k)) % 2 ^ 64 = y ^^^ (y >>> k) :=
  Nat.mod_eq_of_lt (xor_shr_lt y k hy)

/-- C3: one call of the Worker's fast random generator on state x
returns exactly the xorshift64 value with shift constants 13, 7, 17 and
stores that value as the new state; the state stays a 64-bit value; and
the seed constructor stores the (64-bit reduced) clock count, which for
in-range counts is the count itself. -/
theorem spec_C3 (x : Nat) (hx : x < 2 ^ 64) :
    FastRnd.call ⟨x⟩ = (fastRndNext x, ⟨fastRndNext x⟩) ∧
    fastRndNext x = xorshift64Spec x ∧
    fastRndNext x < 2 ^ 64 ∧
    (FastRnd.seed x).x = x := by
  refine ⟨rfl, ?_, ?_, Nat.mod_eq_of_lt hx⟩
  · simp only [fastRndNext, xorshift64Spec]
    rw [xor_shl_mod x 13 hx, xor_shr_mod _ 7 (xor_shl_lt x 13 hx),
      xor_shl_mod _ 17 (xor_shr_lt _ 7 (xor_shl_lt x 13 hx))]
  · simp only [fastRndNext]
    exact xor_shl_lt _ 17 (xor_shr_lt _ 7 (xor_shl_lt x 13 hx))

/-- C3 witness: the generator applied at the concrete state 12345. -/
theorem spec_C3_witness :
    12345 < 2 ^ 64 ∧
    (FastRnd.call ⟨12345⟩ = (fastRndNext 12345, ⟨fastRndNext 12345⟩) ∧
      fastRndNext 12345 = xorshift64Spec 12345 ∧
      fastRndNext 12345 < 2 ^ 64 ∧
      (FastRnd.seed 12345).x = 12345) :=
  ⟨by decide, spec_C3 12345 (by decide)⟩

/-- C1: whenever the counter relation num = tasks.size + fibers.size
holds, it is preserved by every operation that pushes or pops a task or
a ready fiber: enqueuing a task, enqueuing (resuming) a fiber, popping
the front task, popping the front ready fiber, and stealing a task. -/
theorem spec_C1 {T F : Type} [DecidableEq F] (w : Work T F) (t : T) (f : F)
    (h : w.counterInv) :
    (w.enqueueTask t).counterInv ∧
    (w.enqueueFiber f).counterInv ∧
    (∀ t' w', w.takeTask = some (t', w') → w'.counterInv) ∧
    (∀ f' w', w.takeFiber = some (f', w') → w'.counterInv) ∧
    (∀ t' w', w.steal = some (t', w') → w'.counterInv) := by
  obtain ⟨n, nb, ts, fs, wq, na⟩ := w
  simp only [Work.counterInv] at h
  refine ⟨?_, ?_, ?_, ?_, ?_⟩
  · simp only [Work.enqueueTask, Work.counterInv, List.length_append,
      List.length_cons, List.length_nil]
    omega
  · simp only [Work.enqueueFiber, Work.counterInv, List.length_append,
      List.length_cons, List.length_nil]
    omega
  · intro t' w' hw
    cases ts with
    | nil => simp [Work.takeTask] at hw
    | cons a rest =>
      simp only [Work.takeTask, Option.some.injEq, Prod.mk.injEq] at hw
      obtain ⟨-, hw2⟩ := hw
      subst hw2
      simp only [Work.counterInv, List.length_cons] at h ⊢
      omega
  · intro f' w' hw
    cases fs with
    | nil => simp [Work.takeFiber] at hw
    | cons a rest =>
      simp only [Work.takeFiber, Option.some.injEq, Prod.mk.injEq] at hw
      obtain ⟨-, hw2⟩ := hw
      subst hw2
      simp only [Work.counterInv, List.length_cons] at h ⊢
      omega
  · intro t' w' hw
    cases ts with
    | nil => simp [Work.steal, Work.takeTask] at hw
    | cons a rest =>
      simp only [Work.steal, Work.takeTask, Option.some.injEq,
        Prod.mk.injEq] at hw
      obtain ⟨-, hw2⟩ := hw
      subst hw2
      simp only [Work.counterInv, List.length_cons] at h ⊢
      omega

/-- C1 witness: the invariant-preservation theorem applied to a concrete
Work bundle holding one task and one ready fiber with num = 2. -/
theorem spec_C1_witness :
    (Work.mk 2 0 [5] [9] [] true : Work Nat Nat).counterInv ∧
    ((Work.mk 2 0 [5] [9] [] true : Work Nat Nat).enqueueTask 7).counterInv ∧
    ((Work.mk 2 0 [5] [9] [] true : Work Nat Nat).enqueueFiber 3).counterInv ∧
    (∀ t' w', (Work.mk 2 0 [5] [9] [] true : Work Nat Nat).takeTask
      = some (t', w') → w'.counterInv) ∧
    (∀ f' w', (Work.mk 2 0 [5] [9] [] true : Work Nat Nat).takeFiber
      = some (f', w') → w'.counterInv) ∧
    (∀ t' w', (Work.mk 2 0 [5] [9] [] true : Work Nat Nat).steal
      = some (t', w') → w'.counterInv) :=
  ⟨by simp [Work.counterInv],
    spec_C1 (Work.mk 2 0 [5] [9] [] true) 7 3 (by simp [Work.counterInv])⟩

/-- The timed predicate wait settles at the first wake whose predicate
is true or whose time has reached the deadline, and returns the
predicate value observed at that wake. -/
theorem workerWait_timed_eq (d : Nat) (wakes : List (Bool × Nat)) :
    workerWait (some d) false wakes
      = (wakes.find? (fun q => q.1 || decide (d ≤ q.2))).map Prod.fst := by
  induction wakes with
  | nil => rfl
  | cons q rest ih =>
    obtain ⟨p, now⟩ := q
    cases p with
    | true => simp [workerWait, List.find?]
    | false =>
      by_cases hd : d ≤ now
      · simp [workerWait, List.find?, hd]
      · simp [workerWait, List.find?, hd, ih]

/-- C2: the timed overload of the fiber wait. If the predicate holds on
entry the call returns true without suspending. Otherwise the result is
the predicate value at the first wake at which the predicate holds or
the deadline has been reached: the call returns false exactly when the
predicate is still false at that settling wake, and whenever it returns
false the deadline had indeed elapsed there. The outcome is only this
boolean; no error value exists. -/
theorem spec_C2 (d : Nat) (wakes : List (Bool × Nat)) :
    workerWait (some d) true wakes = some true ∧
    workerWait (some d) false wakes
      = (wakes.find? (fun q => q.1 || decide (d ≤ q.2))).map Prod.fst ∧
    (∀ q, wakes.find? (fun q => q.1 || decide (d ≤ q.2)) = some q →
      (workerWait (some d) false wakes = some false ↔ q.1 = false)) ∧
    (∀ q, wakes.find? (fun q => q.1 || decide (d ≤ q.2)) = some q →
      q.1 = false → d ≤ q.2) := by
  refine ⟨by simp [workerWait], workerWait_timed_eq d wakes, ?_, ?_⟩
  · intro q hq
    rw [workerWait_timed_eq d wakes, hq]
    cases hqb : q.1 <;> simp [hqb]
  · intro q hq hq1
    have hsat := List.find?_some hq
    rw [hq1] at hsat
    simpa using hsat

/-- C2 witness: a wait with deadline 10 that is woken at time 3 and at
time 12 with the predicate still false times out with result false. -/
theorem spec_C2_witness :
    workerWait (some 10) true [(false, 3), (false, 12)] = some true ∧
    workerWait (some 10) false [(false, 3), (false, 12)]
      = (([(false, 3), (false, 12)] : List (Bool × Nat)).find?
          (fun q => q.1 || decide (10 ≤ q.2))).map Prod.fst ∧
    (∀ q, ([(false, 3), (false, 12)] : List (Bool × Nat)).find?
        (fun q => q.1 || decide (10 ≤ q.2)) = some q →
      (workerWait (some 10) false [(false, 3), (false, 12)] = some false ↔
        q.1 = false)) ∧
    (∀ q, ([(false, 3), (false, 12)] : List (Bool × Nat)).find?
        (fun q => q.1 || decide (10 ≤ q.2)) = some q →
      q.1 = false → 10 ≤ q.2) :=
  spec_C2 10 [(false, 3), (false, 12)]

/-- The aligned pointer computed from base + 1: it sits base % a short
of a whole number of alignment steps above base. -/
theorem alignUp_base_succ (base a : Nat) (h : 1 ≤ a) :
    alignUp (base + 1) a = base + (a - base % a) := by
  unfold alignUp
  have h1 : base + 1 + a - 1 = base + a := by omega
  rw [h1]
  have h2 : (base + a) / a = base / a + 1 := Nat.add_div_right base (by omega)
  rw [h2, Nat.mul_add, Nat.mul_one]
  have h3 := Nat.div_add_mod base a
  have h4 : base % a < a := Nat.mod_lt base (by omega)
  omega

/-- C8: for alignments 1 ≤ a < 256, aligned_malloc returns a pointer p
that is a multiple of a, lies strictly inside the underlying allocation
(so the offset byte at p - 1 is in bounds) with p + size within its
size + 1 + a bytes; the stored uint8_t offset is exactly p - base
(the cast loses nothing), it is at least 1, and aligned_free recovers
exactly the allocation base from it. -/
theorem spec_C8 (base a s : Nat) (h1 : 1 ≤ a) (h2 : a < 256) :
    (aligned_malloc base a s).1 % a = 0 ∧
    base + 1 ≤ (aligned_malloc base a s).1 ∧
    (aligned_malloc base a s).1 + s ≤ base + allocationSize a s ∧
    (aligned_malloc base a s).2 = (aligned_malloc base a s).1 - base ∧
    1 ≤ (aligned_malloc base a s).2 ∧
    aligned_free (aligned_malloc base a s).1 (aligned_malloc base a s).2
      = base := by
  have hmod : base % a < a := Nat.mod_lt base (by omega)
  have h256 : (2 : Nat) ^ 8 = 256 := by norm_num
  have hp : (aligned_malloc base a s).1 = base + (a - base % a) :=
    alignUp_base_succ base a h1
  have hoff : (aligned_malloc base a s).2 = (a - base % a) % 2 ^ 8 := by
    show (alignUp (base + 1) a - base) % 2 ^ 8 = (a - base % a) % 2 ^ 8
    rw [alignUp_base_succ base a h1]
    congr 1
    omega
  have hsmall : (a - base % a) % 2 ^ 8 = a - base % a := by
    apply Nat.mod_eq_of_lt
    omega
  have hAlloc : allocationSize a s = s + 1 + a := rfl
  refine ⟨?_, by omega, by omega, by omega, by omega, ?_⟩
  · show alignUp (base + 1) a % a = 0
    unfold alignUp
    exact Nat.mul_mod_right a _
  · show (aligned_malloc base a s).1 - (aligned_malloc base a s).2 = base
    omega

/-- C8 witness: allocation base 1000, alignment 16, size 100 gives the
aligned pointer 1008 with offset byte 8, and freeing recovers 1000. -/
theorem spec_C8_witness :
    1 ≤ 16 ∧ 16 < 256 ∧
    ((aligned_malloc 1000 16 100).1 % 16 = 0 ∧
      1000 + 1 ≤ (aligned_malloc 1000 16 100).1 ∧
      (aligned_malloc 1000 16 100).1 + 100 ≤ 1000 + allocationSize 16 100 ∧
      (aligned_malloc 1000 16 100).2
        = (aligned_malloc 1000 16 100).1 - 1000 ∧
      1 ≤ (aligned_malloc 1000 16 100).2 ∧
      aligned_free (aligned_malloc 1000 16 100).1
        (aligned_malloc 1000 16 100).2 = 1000) :=
  ⟨by decide, by decide, spec_C8 1000 16 100 (by decide) (by decide)⟩

/-- C4 counterexample: the claim says Scheduler's round-robin enqueue
counter nextEnqueueIndex starts at 0x8000000, but its member initialiser
in scheduler.h is 0. -/
theorem spec_C4_counterexample : nextEnqueueIndexInit ≠ 0x8000000 := by
  decide

/-- C4 (amended): nextEnqueueIndex has initial value 0; the constant
0x8000000 is instead the initial value of the neighbouring atomic
write cursor nextSpinningWorkerIdx. -/
theorem spec_C4 :
    nextEnqueueIndexInit = 0 ∧ nextSpinningWorkerIdxInit = 0x8000000 := by
  decide

/-- C5 counterexample: the claim says a pool-recycled Fiber's state
immediately after construction is Idle, but the in-class member
initialiser gives every newly constructed Fiber the state Running (the
lone Fiber constructor takes only the OSFiber and the id, so no
construction path can differ). -/
theorem spec_C5_counterexample :
    fiberStateAfterConstruction ≠ FiberState.Idle := by
  decide

/-- C5 (amended): a Fiber's state ranges over exactly
Idle, Yielded, Waiting, Queued and Running, and every Fiber — the
bootstrap fiber promoted from the current thread as well as worker
fibers later recycled through the idle pool — has state Running
immediately after construction; Idle is reached only later, by the
transition that returns a finished fiber to the idle pool. -/
theorem spec_C5 :
    (∀ s : FiberState,
      s = FiberState.Idle ∨ s = FiberState.Yielded ∨
      s = FiberState.Waiting ∨ s = FiberState.Queued ∨
      s = FiberState.Running) ∧
    fiberStateAfterConstruction = FiberState.Running := by
  refine ⟨fun s => ?_, rfl⟩
  cases s
  · exact Or.inl rfl
  · exact Or.inr (Or.inl rfl)
  · exact Or.inr (Or.inr (Or.inl rfl))
  · exact Or.inr (Or.inr (Or.inr (Or.inl rfl)))
  · exact Or.inr (Or.inr (Or.inr (Or.inr rfl)))

/-- C7: the fiber stack size constant is 1 MiB (1024 * 1024 = 2^20
bytes), the maximum worker thread count constant is 256, and the
Scheduler's workerThreads array has exactly MaxWorkerThreads slots. -/
theorem spec_C7 :
    FiberStackSize = 1048576 ∧ FiberStackSize = 2 ^ 20 ∧
    MaxWorkerThreads = 256 ∧
    Fintype.card WorkerThreadIndex = MaxWorkerThreads := by
  exact ⟨by decide, by decide, by decide, Fintype.card_fin MaxWorkerThreads⟩

/-- C6: marl::schedule(t) fails the bound-scheduler assertion exactly
when no scheduler is bound to the calling thread, and otherwise forwards
the task t unchanged to the bound scheduler's enqueue. -/
theorem spec_C6 {S T : Type} (s : S) (t : T) :
    schedule (none : Option S) t = ScheduleResult.assertionFailure ∧
    schedule (some s) t = ScheduleResult.enqueued s t :=
  ⟨rfl, rfl⟩

/-- C9: Event::test returns the signalled state it observed; when it
returns true in Auto mode the signalled state is reset to false, in
Manual mode the state is unchanged; when it returns false the state is
unchanged in both modes; and the mode itself never changes. -/
theorem spec_C9 :
    ∀ e : EventData,
      (Event.test e).1 = e.signalled ∧
      (Event.test e).2.mode = e.mode ∧
      Event.test ⟨EventMode.Auto, true⟩ =
        (true, ⟨EventMode.Auto, false⟩) ∧
      Event.test ⟨EventMode.Manual, true⟩ =
        (true, ⟨EventMode.Manual, true⟩) ∧
      Event.test ⟨e.mode, false⟩ = (false, ⟨e.mode, false⟩) := by
  intro e
  obtain ⟨m, s⟩ := e
  cases m <;> cases s <;> decide

/-- C10: move-constructing g from f leaves the source f empty (its
operator bool is false because its ops_ pointer is null), g holds
exactly what f held — so invoking g calls the callable originally stored
in f — and move-construction from an empty wrapper yields an empty
wrapper (g's emptiness equals f's). -/
theorem spec_C10 {α β : Type} (f : move_only_function (α → β)) (a : α) :
    (f.moveConstruct.2).toBool = false ∧
    (f.moveConstruct.2).ops = none ∧
    f.moveConstruct.1.toBool = f.toBool ∧
    f.moveConstruct.1.invoke a = f.invoke a ∧
    (move_only_function.mk (none : Option (α → β))).moveConstruct.1.toBool
      = false := by
  refine ⟨rfl, rfl, rfl, rfl, rfl⟩

end Marl
